/-
  Verification of the clustering engine of the LUMA repository
  (src/luma/clustering/kmeans.py) against its specification.

  Shallow embedding conventions:
  * A data matrix is a `List (List ℚ)` of rows.  NumPy float arithmetic on
    the finite values occurring here is exact, so ℚ is a faithful carrier.
  * The only NaN values that can arise in the clustering code are whole
    reference-point rows produced by `np.mean` / `np.median` of an empty
    selection (shape `(0, D)` with `D > 0`).  A reference row is therefore
    modelled as `Option (List ℚ)`, `none` standing for an all-NaN row.
  * Scalar distances seen by `np.argmin` are modelled by `NpF`
    (a rational number or NaN).  `np.linalg.norm` applies a square root,
    which is strictly monotone, so the squared Euclidean distance yields the
    same argmin, elementwise-equality checks never look at distances, and no
    other part of the code consumes the distance values; the embedding
    therefore keeps the exact squared distances.
  * `np.argmin` is embedded with NumPy's documented semantics: the first
    occurrence of the minimum is returned, and NaN propagates as the
    minimum, so the index of the first NaN is returned when one is present.
  * Randomness (`np.random.choice`) is an explicit oracle argument: the
    caller supplies the indices the generator would have produced, while the
    error behaviour of the primitive (sampling more distinct indices than
    the population, probability weights containing NaN, empty population)
    is part of the embedding.
-/
import Mathlib

set_option maxRecDepth 4000

/-- A data row: one sample with `D` rational coordinates. -/
abbrev NRow : Type := List ℚ

/-- A data matrix: `N` rows of `D` coordinates (`np.ndarray` of shape `(N, D)`). -/
abbrev NMat : Type := List NRow

/-- Column count of a matrix, as NumPy reads it off the first row. -/
def width (X : NMat) : Nat := (X.headD []).length

/-- A NumPy float that is either an ordinary (finite) value or NaN. -/
inductive NpF : Type where
  | nan : NpF
  | num : ℚ → NpF
deriving DecidableEq, Repr

/-- The comparison `np.argmin` scans with: does value `v` replace the current
minimum `cur`?  A finite value replaces a larger finite value, NaN replaces
any finite value, and nothing replaces NaN — hence the first NaN wins. -/
def npLtKeep : NpF → NpF → Bool
  | NpF.nan, NpF.nan => false
  | NpF.nan, NpF.num _ => true
  | NpF.num _, NpF.nan => false
  | NpF.num a, NpF.num b => decide (a < b)

/-- Scan of `np.argmin`: remaining values, current minimum, index of the next
value, index of the current minimum. -/
def npArgminAux : List NpF → NpF → Nat → Nat → Nat
  | [], _, _, best => best
  | v :: vs, cur, idx, best =>
    if npLtKeep v cur then npArgminAux vs v (idx + 1) idx
    else npArgminAux vs cur (idx + 1) best

/-- `np.argmin` on a one-dimensional array: index of the first occurrence of
the minimum, the first NaN counting as the minimum. -/
def npArgmin : List NpF → Nat
  | [] => 0
  | v :: vs => npArgminAux vs v 1 0

/-- Squared Euclidean distance between two rows
(`np.linalg.norm(x - c) ** 2`, exact in ℚ). -/
def sqDist (x c : NRow) : ℚ := ((x.zip c).map (fun p => (p.1 - p.2) ^ 2)).sum

/-- Manhattan distance between two rows (`np.abs(x - c).sum()`). -/
def l1Dist (x c : NRow) : ℚ := ((x.zip c).map (fun p => |p.1 - p.2|)).sum

/-- Python `min` over a nonempty list (the `[]` case is unreachable where
this is used). -/
def listMinD : List ℚ → ℚ
  | [] => 0
  | a :: as => as.foldl min a

/-- `min([np.linalg.norm(x - c) ** 2 for c in centroids])` from
`KMeansClusteringPlus._initialize_centroids` (squared distances are exact). -/
def minSqDistTo (cs : NMat) (x : NRow) : ℚ := listMinD (cs.map (sqDist x))

/-- A reference-point row: `none` models the all-NaN row that `np.mean` /
`np.median` return on an empty selection with at least one column. -/
abbrev CRow : Type := Option NRow

/-- A reference set (`centroids` / `medians`): `K` reference rows. -/
abbrev CMat : Type := List CRow

/-- Squared Euclidean distance from a data row to a reference row; any
distance to an all-NaN row is NaN. -/
def distE (x : NRow) : CRow → NpF
  | some c => NpF.num (sqDist x c)
  | none => NpF.nan

/-- Manhattan distance from a data row to a reference row; any distance to an
all-NaN row is NaN. -/
def distM (x : NRow) : CRow → NpF
  | some c => NpF.num (l1Dist x c)
  | none => NpF.nan

/-- Euclidean assignment step on reference rows that may be NaN:
`np.argmin(np.linalg.norm(X[:, np.newaxis] - centroids, axis=2), axis=1)`. -/
def assignE (X : NMat) (C : CMat) : List Nat :=
  X.map fun x => npArgmin (C.map (distE x))

/-- Manhattan assignment step:
`np.argmin(np.abs(X[:, np.newaxis] - medians).sum(axis=2), axis=1)`. -/
def assignM (X : NMat) (C : CMat) : List Nat :=
  X.map fun x => npArgmin (C.map (distM x))

/-- Euclidean assignment step against NaN-free reference rows (the reference
sets of `KMeansClusteringPlus` and `MiniBatchKMeansClustering` never contain
NaN, since both skip empty clusters). -/
def assignQ (P : NMat) (C : NMat) : List Nat :=
  P.map fun x => npArgmin (C.map (fun c => NpF.num (sqDist x c)))

/-- `X[labels == i]`: the rows of `P` whose label is `i`, in order. -/
def ptsOf (P : NMat) (labels : List Nat) (i : Nat) : NMat :=
  ((P.zip labels).filter (fun pl => pl.2 == i)).map (fun pl => pl.1)

/-- `np.mean(pts, axis=0)` over a nonempty selection of `D`-column rows. -/
def meanRow (pts : NMat) (D : Nat) : NRow :=
  (List.range D).map fun j => ((pts.map (fun r => r.getD j 0)).sum) / (pts.length : ℚ)

/-- `np.mean(X[labels == i], axis=0)` as it appears in `KMeansClustering.fit`:
empty selection with `D > 0` columns gives an all-NaN row (`none`); with
zero columns NumPy returns an empty row. -/
def npMeanRowOf (X : NMat) (pts : NMat) : CRow :=
  if pts.isEmpty then (if width X = 0 then some [] else none)
  else some (meanRow pts (width pts))

/-- `np.median` of a list of rationals: average of the two middle elements of
the sorted list (they coincide for odd length). -/
def npMedianList (l : List ℚ) : ℚ :=
  let s := l.insertionSort (· ≤ ·)
  (s.getD ((l.length - 1) / 2) 0 + s.getD (l.length / 2) 0) / 2

/-- `np.median(pts, axis=0)` over a nonempty selection of `D`-column rows. -/
def medianRow (pts : NMat) (D : Nat) : NRow :=
  (List.range D).map fun j => npMedianList (pts.map (fun r => r.getD j 0))

/-- `np.median(X[labels == i], axis=0)` as in `KMediansClustering.fit`:
empty selection with `D > 0` columns gives an all-NaN row (`none`). -/
def npMedianRowOf (X : NMat) (pts : NMat) : CRow :=
  if pts.isEmpty then (if width X = 0 then some [] else none)
  else some (medianRow pts (width pts))

/-- NumPy elementwise `==` on two reference rows of the same width:
an all-NaN row compares unequal to everything, NaN rows included. -/
def rowEqNp : CRow → CRow → Bool
  | some r, some s => r == s
  | _, _ => false

/-- `np.all(np.array(new) == old)` on two reference sets of equal shape. -/
def centroidsEq (A B : CMat) : Bool :=
  A.length == B.length && (A.zip B).all fun p => rowEqNp p.1 p.2

/-- One iteration body of `KMeansClustering.fit`: Euclidean assignment, then
the per-cluster mean (`[X[labels == i].mean(axis=0) for i in range(K)]`). -/
def kmStep (X : NMat) (K : Nat) (C : CMat) : CMat :=
  let labels := assignE X C
  (List.range K).map fun i => npMeanRowOf X (ptsOf X labels i)

/-- One iteration body of `KMediansClustering.fit`: Manhattan assignment,
then the per-cluster elementwise median. -/
def kmedStep (X : NMat) (K : Nat) (C : CMat) : CMat :=
  let labels := assignM X C
  (List.range K).map fun i => npMedianRowOf X (ptsOf X labels i)

/-- The `for i in range(max_iter)` loop shared by `KMeansClustering.fit` and
`KMediansClustering.fit`: compute the new reference set; if it is elementwise
identical to the previous one, break (keeping the previous set); otherwise
adopt it and continue.  Returns the final reference set together with the
number of loop iterations the Python `for` body executed. -/
def convLoop (step : CMat → CMat) : Nat → CMat → CMat × Nat
  | 0, C => (C, 0)
  | fuel + 1, C =>
    let C' := step C
    if centroidsEq C' C then (C, 1)
    else
      let r := convLoop step fuel C'
      (r.1, r.2 + 1)

/-- The in-place update loop shared by `KMeansClusteringPlus.fit` and
`MiniBatchKMeansClustering.fit`: for each cluster index in order, if some
points are assigned to it overwrite its reference row with their mean,
otherwise leave the row untouched (`if len(cluster_points) == 0: continue`,
resp. `if len(cluster_points) > 0:`). -/
def updStep (P : NMat) (labels : List Nat) (acc : NMat) (i : Nat) : NMat :=
  let pts := ptsOf P labels i
  if pts.isEmpty then acc else acc.set i (meanRow pts (width pts))

/-- The whole in-place update pass: `updStep` applied to each cluster index
`0, …, K-1` in order. -/
def updSkipEmpty (P : NMat) (labels : List Nat) (K : Nat) (C : NMat) : NMat :=
  (List.range K).foldl (updStep P labels) C

/-- The `for _ in range(max_iter)` loop of `KMeansClusteringPlus.fit`:
assignment over the full dataset, then the skip-empty in-place update.
There is no convergence check; the loop always consumes its whole budget.
Returns the final reference set and the iteration count. -/
def plusLoop (X : NMat) (K : Nat) : Nat → NMat → NMat × Nat
  | 0, C => (C, 0)
  | fuel + 1, C =>
    let C' := updSkipEmpty X (assignQ X C) K C
    let r := plusLoop X K fuel C'
    (r.1, r.2 + 1)

/-- Errors raised by `np.random.choice` as the clustering code can trigger
them: `rangeErr` is the "Cannot take a larger sample than population when
replace=False" ValueError, `probsErr` is the "probabilities contain NaN"
ValueError (the weights `distances / distances.sum()` are NaN exactly when
the distances sum to zero), and `emptyErr` is the ValueError raised when
sampling from an empty population. -/
inductive SamplingErr : Type where
  | rangeErr : SamplingErr
  | probsErr : SamplingErr
  | emptyErr : SamplingErr
deriving DecidableEq, Repr

/-- The `for _ in range(1, n_clusters)` draw loop of
`KMeansClusteringPlus._initialize_centroids`, with the oracle `orc` supplying
the index each weighted `np.random.choice` call returns.  Arguments: number
of draws left, index of the next draw, reference rows chosen so far.  When
every point is at distance zero from the chosen rows the weights are NaN and
the choice call raises. -/
def plusDraws (X : NMat) (orc : Nat → Nat) : Nat → Nat → NMat → NMat × Option SamplingErr
  | 0, _, cs => (cs, none)
  | k + 1, t, cs =>
    if (X.map (minSqDistTo cs)).sum = 0 then (cs, some SamplingErr.probsErr)
    else plusDraws X orc k (t + 1) (cs ++ [X.getD (orc t) []])

/-- Validity of a draw oracle for `plusDraws`: whenever a draw actually
happens, the oracle returns an in-range index whose selection weight is
nonzero — exactly the indices `np.random.choice` can return. -/
def validDraws (X : NMat) (orc : Nat → Nat) : Nat → Nat → NMat → Bool
  | 0, _, _ => true
  | k + 1, t, cs =>
    if (X.map (minSqDistTo cs)).sum = 0 then true
    else
      decide (orc t < X.length) &&
      !(decide (minSqDistTo cs (X.getD (orc t) []) = 0)) &&
      validDraws X orc k (t + 1) (cs ++ [X.getD (orc t) []])

/-- The `for _ in range(max_iter)` loop of `MiniBatchKMeansClustering.fit`:
each iteration draws a batch of `bs` distinct indices (raising the sampling
range error when `bs` exceeds the population `m`), assigns the batch rows to
the nearest reference row and applies the skip-empty in-place update.
`orc t` is the index list the `t`-th batch draw returns.  Returns the final
reference set, the number of completed iterations and the error, if any. -/
def mbLoop (X : NMat) (m K bs : Nat) (orc : Nat → List Nat) :
    Nat → Nat → NMat → NMat × Nat × Option SamplingErr
  | 0, _, C => (C, 0, none)
  | fuel + 1, t, C =>
    if m < bs then (C, 0, some SamplingErr.rangeErr)
    else
      let batch := (orc t).map (fun i => X.getD i [])
      let C' := updSkipEmpty batch (assignQ batch C) K C
      let r := mbLoop X m K bs orc fuel (t + 1) C'
      (r.1, r.2.1 + 1, r.2.2)

/-- The `NotFittedError` raised by `predict`/`labels`/`score` before a
successful `fit`.  Modelled from the spec: the class itself lives in
`luma/interface/exception.py`, which is not part of the sources here; per the
spec it "carries identity of the offending estimator", matching the raise
site `raise NotFittedError(self)` that is in the sources. -/
inductive NotFittedError (σ : Type) : Type where
  | notFitted : σ → NotFittedError σ
deriving DecidableEq, Repr

/-- Result of a `fit` call: the state of the estimator when the call returns
or when the exception propagates out of it, the exception (if any), and the
number of iterations the main loop executed. -/
structure FitRes (σ : Type) : Type where
  state : σ
  err : Option SamplingErr
  iters : Nat
deriving DecidableEq, Repr

/-- `luma.clustering.kmeans.KMeansClustering`.  `centroids` is `none` until
`fit` first assigns the attribute. -/
structure KMeansClustering : Type where
  n_clusters : Nat
  max_iter : Int
  verbose : Bool
  _X : Option NMat
  _fitted : Bool
  centroids : Option CMat
deriving DecidableEq, Repr

/-- `KMeansClustering.__init__(n_clusters, max_iter, verbose)`. -/
def KMeansClustering.make (K : Nat) (mi : Int) (vb : Bool) : KMeansClustering :=
  { n_clusters := K, max_iter := mi, verbose := vb
    _X := none, _fitted := false, centroids := none }

/-- `KMeansClustering.fit(X)`, with `idx` the indices returned by
`np.random.choice(X.shape[0], n_clusters, replace=False)`; that call raises
the sampling range error exactly when `n_clusters` exceeds the row count, in
which case nothing has been mutated yet.  The verbose `print` branches have
no functional effect and are omitted. -/
def KMeansClustering.fit (self : KMeansClustering) (X : NMat) (idx : List Nat) :
    FitRes KMeansClustering :=
  if X.length < self.n_clusters then ⟨self, some SamplingErr.rangeErr, 0⟩
  else
    let C0 : CMat := idx.map fun i => some (X.getD i [])
    let r := convLoop (kmStep X self.n_clusters) self.max_iter.toNat C0
    ⟨{ self with centroids := some r.1, _X := some X, _fitted := true },
      none, r.2⟩

/-- `KMeansClustering.predict(X)`: raises `NotFittedError(self)` unless
fitted, else labels each row with the argmin of its distances to the
centroids. -/
def KMeansClustering.predict (self : KMeansClustering) (X : NMat) :
    Except (NotFittedError KMeansClustering) (List Nat) :=
  if self._fitted then Except.ok (assignE X (self.centroids.getD []))
  else Except.error (NotFittedError.notFitted self)

/-- The `labels` property: `self.predict(self._X)` (before any `fit`, `_X`
is `None` and `predict` raises before touching it). -/
def KMeansClustering.labels (self : KMeansClustering) :
    Except (NotFittedError KMeansClustering) (List Nat) :=
  self.predict (self._X.getD [])

/-- `KMeansClustering.score(X, metric)`: `metric.compute(X, self.predict(X))`,
with the evaluator passed as a function. -/
def KMeansClustering.score (self : KMeansClustering) (X : NMat)
    (metric : NMat → List Nat → ℚ) : Except (NotFittedError KMeansClustering) ℚ :=
  (self.predict X).map (metric X)

/-- `luma.clustering.kmeans.KMeansClusteringPlus`.  Its reference rows never
contain NaN (empty clusters are skipped), so they are plain rows. -/
structure KMeansClusteringPlus : Type where
  n_clusters : Nat
  max_iter : Int
  verbose : Bool
  _X : Option NMat
  _fitted : Bool
  centroids : Option NMat
deriving DecidableEq, Repr

/-- `KMeansClusteringPlus.__init__(n_clusters, max_iter, verbose)`. -/
def KMeansClusteringPlus.make (K : Nat) (mi : Int) (vb : Bool) : KMeansClusteringPlus :=
  { n_clusters := K, max_iter := mi, verbose := vb
    _X := none, _fitted := false, centroids := none }

/-- `KMeansClusteringPlus.fit(X)`.  `self._X = X` happens first; the seeding
then draws one index uniformly (raising on an empty population, before the
`centroids` attribute is assigned) and `n_clusters - 1` further indices with
weights proportional to squared distances (`plusDraws`); a failing draw
propagates with the partial centroid list assigned.  The main loop has no
convergence check.  `orc t` is the row index the `t`-th draw returns. -/
def KMeansClusteringPlus.fit (self : KMeansClusteringPlus) (X : NMat)
    (orc : Nat → Nat) : FitRes KMeansClusteringPlus :=
  let s1 := { self with _X := some X }
  if X.length = 0 then ⟨s1, some SamplingErr.emptyErr, 0⟩
  else
    let c0 := X.getD (orc 0) []
    let d := plusDraws X orc (self.n_clusters - 1) 1 [c0]
    match d.2 with
    | some e => ⟨{ s1 with centroids := some d.1 }, some e, 0⟩
    | none =>
      let r := plusLoop X self.n_clusters self.max_iter.toNat d.1
      ⟨{ s1 with centroids := some r.1, _fitted := true }, none, r.2⟩

/-- `KMeansClusteringPlus.predict(X)`: same body as for `KMeansClustering`,
specialised to the NaN-free reference rows this class maintains. -/
def KMeansClusteringPlus.predict (self : KMeansClusteringPlus) (X : NMat) :
    Except (NotFittedError KMeansClusteringPlus) (List Nat) :=
  if self._fitted then Except.ok (assignQ X (self.centroids.getD []))
  else Except.error (NotFittedError.notFitted self)

/-- The `labels` property of `KMeansClusteringPlus`. -/
def KMeansClusteringPlus.labels (self : KMeansClusteringPlus) :
    Except (NotFittedError KMeansClusteringPlus) (List Nat) :=
  self.predict (self._X.getD [])

/-- `KMeansClusteringPlus.score(X, metric)`. -/
def KMeansClusteringPlus.score (self : KMeansClusteringPlus) (X : NMat)
    (metric : NMat → List Nat → ℚ) : Except (NotFittedError KMeansClusteringPlus) ℚ :=
  (self.predict X).map (metric X)

/-- `luma.clustering.kmeans.KMediansClustering`. -/
structure KMediansClustering : Type where
  n_clusters : Nat
  max_iter : Int
  verbose : Bool
  _X : Option NMat
  _fitted : Bool
  medians : Option CMat
deriving DecidableEq, Repr

/-- `KMediansClustering.__init__(n_clusters, max_iter, verbose)`. -/
def KMediansClustering.make (K : Nat) (mi : Int) (vb : Bool) : KMediansClustering :=
  { n_clusters := K, max_iter := mi, verbose := vb
    _X := none, _fitted := false, medians := none }

/-- `KMediansClustering.fit(X)`: `self._X = X` first, then the without-
replacement index draw (raising when `n_clusters` exceeds the row count,
before `medians` is assigned), then the convergence loop with Manhattan
assignment and per-cluster medians. -/
def KMediansClustering.fit (self : KMediansClustering) (X : NMat) (idx : List Nat) :
    FitRes KMediansClustering :=
  let s1 := { self with _X := some X }
  if X.length < self.n_clusters then ⟨s1, some SamplingErr.rangeErr, 0⟩
  else
    let C0 : CMat := idx.map fun i => some (X.getD i [])
    let r := convLoop (kmedStep X self.n_clusters) self.max_iter.toNat C0
    ⟨{ s1 with medians := some r.1, _fitted := true }, none, r.2⟩

/-- `KMediansClustering.predict(X)`: Manhattan-distance labelling, gated by
the fitted flag. -/
def KMediansClustering.predict (self : KMediansClustering) (X : NMat) :
    Except (NotFittedError KMediansClustering) (List Nat) :=
  if self._fitted then Except.ok (assignM X (self.medians.getD []))
  else Except.error (NotFittedError.notFitted self)

/-- The `labels` property of `KMediansClustering`. -/
def KMediansClustering.labels (self : KMediansClustering) :
    Except (NotFittedError KMediansClustering) (List Nat) :=
  self.predict (self._X.getD [])

/-- `KMediansClustering.score(X, metric)`. -/
def KMediansClustering.score (self : KMediansClustering) (X : NMat)
    (metric : NMat → List Nat → ℚ) : Except (NotFittedError KMediansClustering) ℚ :=
  (self.predict X).map (metric X)

/-- `luma.clustering.kmeans.MiniBatchKMeansClustering` (no `verbose`;
`centroids` is initialised to `None` in `__init__`). -/
structure MiniBatchKMeansClustering : Type where
  n_clusters : Nat
  batch_size : Nat
  max_iter : Int
  centroids : Option NMat
  _X : Option NMat
  _fitted : Bool
deriving DecidableEq, Repr

/-- `MiniBatchKMeansClustering.__init__(n_clusters, batch_size, max_iter)`. -/
def MiniBatchKMeansClustering.make (K bs : Nat) (mi : Int) : MiniBatchKMeansClustering :=
  { n_clusters := K, batch_size := bs, max_iter := mi
    centroids := none, _X := none, _fitted := false }

/-- `MiniBatchKMeansClustering.fit(X)`: `self._X = X` first, then the
without-replacement centroid-index draw, then `max_iter` batch iterations
with no convergence check; a failing batch draw propagates with the
partially updated centroids in place.  `idx` seeds the centroids and
`orc t` is the `t`-th batch index draw. -/
def MiniBatchKMeansClustering.fit (self : MiniBatchKMeansClustering) (X : NMat)
    (idx : List Nat) (orc : Nat → List Nat) : FitRes MiniBatchKMeansClustering :=
  let m := X.length
  let s1 := { self with _X := some X }
  if m < self.n_clusters then ⟨s1, some SamplingErr.rangeErr, 0⟩
  else
    let C0 : NMat := idx.map fun i => X.getD i []
    let r := mbLoop X m self.n_clusters self.batch_size orc self.max_iter.toNat 0 C0
    match r.2.2 with
    | some e => ⟨{ s1 with centroids := some r.1 }, some e, r.2.1⟩
    | none => ⟨{ s1 with centroids := some r.1, _fitted := true }, none, r.2.1⟩

/-- `MiniBatchKMeansClustering.predict(X)`. -/
def MiniBatchKMeansClustering.predict (self : MiniBatchKMeansClustering) (X : NMat) :
    Except (NotFittedError MiniBatchKMeansClustering) (List Nat) :=
  if self._fitted then Except.ok (assignQ X (self.centroids.getD []))
  else Except.error (NotFittedError.notFitted self)

/-- The `labels` property of `MiniBatchKMeansClustering`. -/
def MiniBatchKMeansClustering.labels (self : MiniBatchKMeansClustering) :
    Except (NotFittedError MiniBatchKMeansClustering) (List Nat) :=
  self.predict (self._X.getD [])

/-- `MiniBatchKMeansClustering.score(X, metric)`. -/
def MiniBatchKMeansClustering.score (self : MiniBatchKMeansClustering) (X : NMat)
    (metric : NMat → List Nat → ℚ) : Except (NotFittedError MiniBatchKMeansClustering) ℚ :=
  (self.predict X).map (metric X)

/-! ### Concrete instances and data used by witnesses and counterexamples -/

/-- A freshly constructed (unfitted) `KMeansClustering`. -/
def km0 : KMeansClustering := KMeansClustering.make 2 100 false

/-- A freshly constructed (unfitted) `KMeansClusteringPlus`. -/
def plus0 : KMeansClusteringPlus := KMeansClusteringPlus.make 2 100 false

/-- A freshly constructed (unfitted) `KMediansClustering`. -/
def kmed0 : KMediansClustering := KMediansClustering.make 2 100 false

/-- A freshly constructed (unfitted) `MiniBatchKMeansClustering`. -/
def mb0 : MiniBatchKMeansClustering := MiniBatchKMeansClustering.make 2 100 100

/-- `KMeansClusteringPlus(n_clusters=1, max_iter=5)`: used to exhibit the
missing convergence check. -/
def plusC2 : KMeansClusteringPlus := KMeansClusteringPlus.make 1 5 false

/-- A two-point one-dimensional dataset whose single centroid reaches its
fixed point after one iteration. -/
def XC2 : NMat := [[0], [4]]

/-- `KMeansClusteringPlus(n_clusters=3)` on a two-row dataset: more clusters
than samples. -/
def plusC6 : KMeansClusteringPlus := KMeansClusteringPlus.make 3 100 false

/-- The two-row dataset used for the over-clustered seeding runs. -/
def XC6 : NMat := [[0], [1]]

/-- Draw oracle for the over-clustered seeding run: the `t`-th weighted draw
returns row `t` (the only row with nonzero weight at that draw). -/
def orcC6 : Nat → Nat := fun t => t

/-- A fitted `KMeansClustering` with one centroid, as `fit` would leave it. -/
def kmF : KMeansClustering :=
  { n_clusters := 1, max_iter := 100, verbose := false
    _X := some [[0], [4]], _fitted := true, centroids := some [some [2]] }

/-- A fitted `KMeansClusteringPlus` with two centroids. -/
def plusF : KMeansClusteringPlus :=
  { n_clusters := 2, max_iter := 100, verbose := false
    _X := some [[0], [4]], _fitted := true, centroids := some [[0], [4]] }

/-- A fitted `KMediansClustering` with two medians. -/
def kmedF : KMediansClustering :=
  { n_clusters := 2, max_iter := 100, verbose := false
    _X := some [[0], [4]], _fitted := true, medians := some [some [0], some [4]] }

/-- A fitted `MiniBatchKMeansClustering` with two centroids. -/
def mbF : MiniBatchKMeansClustering :=
  { n_clusters := 2, batch_size := 2, max_iter := 100
    centroids := some [[0], [4]], _X := some [[0], [4]], _fitted := true }

/-! ### General list lemmas used by the verification -/

/-- `getD` at an in-range index is a member of the list. -/
theorem getD_mem {α : Type _} (l : List α) (i : Nat) (d : α) (h : i < l.length) :
    l.getD i d ∈ l := by
  simp [List.getD]
  rw [List.getElem?_eq_getElem h]
  simp

/-- `getD` after `set` at a different index. -/
theorem getD_set_ne {α : Type _} (l : List α) (i j : Nat) (a d : α) (h : i ≠ j) :
    (l.set i a).getD j d = l.getD j d := by
  simp [List.getD, List.getElem?_set_ne h]

/-- `getD` after `set` at the same in-range index. -/
theorem getD_set_self {α : Type _} (l : List α) (i : Nat) (a d : α) (h : i < l.length) :
    (l.set i a).getD i d = a := by
  simp [List.getD, List.getElem?_set_self, h]

/-- `getD` on an append, index inside the left part. -/
theorem getD_append_lt {α : Type _} (l l' : List α) (j : Nat) (d : α) (h : j < l.length) :
    (l ++ l').getD j d = l.getD j d := by
  simp [List.getD, List.getElem?_append_left h]

/-- `getD` on `l ++ [a]` at index `l.length`. -/
theorem getD_append_len {α : Type _} (l : List α) (a : α) (d : α) :
    (l ++ [a]).getD l.length d = a := by
  simp [List.getD]

/-- `getD` through `map` at an in-range index. -/
theorem getD_map_lt {α β : Type _} (f : α → β) (l : List α) (p : Nat) (d : β) (d' : α)
    (h : p < l.length) : (l.map f).getD p d = f (l.getD p d') := by
  simp [List.getD, List.getElem?_map, List.getElem?_eq_getElem h]

/-- A duplicate-free list of members of `l` is no longer than `l`. -/
theorem nodup_subset_length_le {α : Type _} (cs l : List α) (hn : cs.Nodup)
    (hs : ∀ c ∈ cs, c ∈ l) : cs.length ≤ l.length :=
  (hn.subperm hs).length_le

/-! ### Arithmetic facts about the embedded NumPy primitives -/

/-- A fold of `min` is bounded by its seed and by every element. -/
theorem foldl_min_le (l : List ℚ) : ∀ a : ℚ,
    l.foldl min a ≤ a ∧ ∀ q ∈ l, l.foldl min a ≤ q := by
  induction l with
  | nil => intro a; exact ⟨le_refl a, by intro q hq; cases hq⟩
  | cons b bs ih =>
    intro a
    have h := ih (min a b)
    refine ⟨le_trans h.1 (min_le_left a b), ?_⟩
    intro q hq
    rcases List.mem_cons.mp hq with rfl | hq
    · exact le_trans h.1 (min_le_right a q)
    · exact h.2 q hq

/-- A fold of `min` over nonnegative inputs stays nonnegative. -/
theorem foldl_min_nonneg (l : List ℚ) : ∀ a : ℚ, 0 ≤ a → (∀ q ∈ l, 0 ≤ q) →
    0 ≤ l.foldl min a := by
  induction l with
  | nil => intro a ha _; exact ha
  | cons b bs ih =>
    intro a ha h
    exact ih (min a b) (le_min ha (h b (List.mem_cons_self b bs)))
      (fun q hq => h q (List.mem_cons_of_mem b hq))

/-- Python `min` of a list is bounded by every member. -/
theorem listMinD_le (l : List ℚ) (q : ℚ) (h : q ∈ l) : listMinD l ≤ q := by
  cases l with
  | nil => cases h
  | cons a as =>
    rcases List.mem_cons.mp h with rfl | hq
    · exact (foldl_min_le as q).1
    · exact (foldl_min_le as a).2 q hq

/-- Python `min` of a list of nonnegative values is nonnegative. -/
theorem listMinD_nonneg (l : List ℚ) (h : ∀ q ∈ l, 0 ≤ q) : 0 ≤ listMinD l := by
  cases l with
  | nil => exact le_refl 0
  | cons a as =>
    exact foldl_min_nonneg as a (h a (List.mem_cons_self a as))
      (fun q hq => h q (List.mem_cons_of_mem a hq))

/-- Squared Euclidean distances are nonnegative. -/
theorem sqDist_nonneg (x c : NRow) : 0 ≤ sqDist x c := by
  refine List.sum_nonneg ?_
  intro q hq
  rcases List.mem_map.mp hq with ⟨p, _, rfl⟩
  positivity

/-- The squared Euclidean distance from a row to itself is zero. -/
theorem sqDist_self (x : NRow) : sqDist x x = 0 := by
  unfold sqDist
  induction x with
  | nil => rfl
  | cons a as ih =>
    simp only [List.zip_cons_cons, List.map_cons, List.sum_cons] at *
    rw [ih]
    ring

/-- If `x` is one of the reference rows, the minimal squared distance from
`x` to them is zero. -/
theorem minSqDistTo_eq_zero_of_mem (cs : NMat) (x : NRow) (h : x ∈ cs) :
    minSqDistTo cs x = 0 := by
  have hle : minSqDistTo cs x ≤ 0 := by
    have hmem : (0 : ℚ) ∈ cs.map (sqDist x) := by
      rw [← sqDist_self x]
      exact List.mem_map.mpr ⟨x, h, rfl⟩
    exact listMinD_le _ 0 hmem
  have hge : 0 ≤ minSqDistTo cs x := by
    refine listMinD_nonneg _ ?_
    intro q hq
    rcases List.mem_map.mp hq with ⟨c, _, rfl⟩
    exact sqDist_nonneg x c
  exact le_antisymm hle hge

/-! ### Behaviour of the embedded loops -/

/-- The weighted seeding draws of `KMeansClusteringPlus` must fail when more
reference rows are requested than the duplicate-free rows chosen so far can
grow to within the population: every successful draw adds a row distinct
from all chosen ones, so once the population is exhausted the selection
weights are NaN and `np.random.choice` raises. -/
theorem plusDraws_fails (X : NMat) (orc : Nat → Nat) :
    ∀ (k t : Nat) (cs : NMat), cs.Nodup → (∀ c ∈ cs, c ∈ X) →
      validDraws X orc k t cs = true → X.length < cs.length + k →
      (plusDraws X orc k t cs).2 = some SamplingErr.probsErr := by
  intro k
  induction k with
  | zero =>
    intro t cs hn hs _ hlt
    exact absurd (nodup_subset_length_le cs X hn hs) (by omega)
  | succ k ih =>
    intro t cs hn hs hv hlt
    by_cases hz : (X.map (minSqDistTo cs)).sum = 0
    · simp [plusDraws, hz]
    · have hv' := hv
      simp only [validDraws, if_neg hz, Bool.and_eq_true, Bool.not_eq_true',
        decide_eq_true_eq, decide_eq_false_iff_not] at hv'
      obtain ⟨⟨horc, hpos⟩, hrest⟩ := hv'
      set x := X.getD (orc t) [] with hx
      have hxX : x ∈ X := getD_mem X (orc t) [] horc
      have hxcs : x ∉ cs := fun hmem => hpos (minSqDistTo_eq_zero_of_mem cs x hmem)
      have hn' : (cs ++ [x]).Nodup := by
        simp [List.nodup_append, hn, hxcs]
      have hs' : ∀ c ∈ cs ++ [x], c ∈ X := by
        intro c hc
        rcases List.mem_append.mp hc with hc | hc
        · exact hs c hc
        · rcases List.mem_singleton.mp hc with rfl; exact hxX
      have hlen : X.length < (cs ++ [x]).length + k := by
        simp only [List.length_append, List.length_singleton]; omega
      have := ih (t + 1) (cs ++ [x]) hn' hs' hrest hlen
      simp only [plusDraws, if_neg hz]
      exact this

/-- The main loop of `KMeansClusteringPlus.fit` always runs its entire
budget: it has no convergence check and no failure mode. -/
theorem plusLoop_iters (X : NMat) (K : Nat) :
    ∀ (fuel : Nat) (C : NMat), (plusLoop X K fuel C).2 = fuel := by
  intro fuel
  induction fuel with
  | zero => intro C; rfl
  | succ n ih => intro C; simp [plusLoop, ih]

/-- When the batch size does not exceed the population, every iteration of
the mini-batch loop succeeds, so the loop consumes its entire budget. -/
theorem mbLoop_ok (X : NMat) (m K bs : Nat) (orc : Nat → List Nat) (hbs : ¬ m < bs) :
    ∀ (fuel t : Nat) (C : NMat),
      (mbLoop X m K bs orc fuel t C).2.2 = none ∧
      (mbLoop X m K bs orc fuel t C).2.1 = fuel := by
  intro fuel
  induction fuel with
  | zero => intro t C; exact ⟨rfl, rfl⟩
  | succ n ih =>
    intro t C
    have h := ih (t + 1) (updSkipEmpty ((orc t).map (fun i => X.getD i []))
      (assignQ ((orc t).map (fun i => X.getD i [])) C) K C)
    simp only [mbLoop, if_neg hbs]
    exact ⟨h.1, by rw [h.2]⟩

/-! ### The skip-empty update pass -/

/-- Unfolding equation for `updStep` with its `let` reduced. -/
theorem updStep_eq (P : NMat) (labels : List Nat) (acc : NMat) (i : Nat) :
    updStep P labels acc i =
      if (ptsOf P labels i).isEmpty then acc
      else acc.set i (meanRow (ptsOf P labels i) (width (ptsOf P labels i))) := rfl

/-- `updStep` never changes the row count. -/
theorem updStep_length (P : NMat) (labels : List Nat) (acc : NMat) (i : Nat) :
    (updStep P labels acc i).length = acc.length := by
  rw [updStep_eq]
  split <;> simp

/-- A fold of `updStep` never changes the row count. -/
theorem foldl_updStep_length (P : NMat) (labels : List Nat) :
    ∀ (L : List Nat) (C : NMat), (L.foldl (updStep P labels) C).length = C.length := by
  intro L
  induction L with
  | nil => intro C; rfl
  | cons j L' ih => intro C; rw [List.foldl_cons, ih, updStep_length]

/-- `updStep` at index `j` leaves any other row unchanged. -/
theorem updStep_getD_ne (P : NMat) (labels : List Nat) (C : NMat) (j i : Nat)
    (hij : j ≠ i) : (updStep P labels C j).getD i [] = C.getD i [] := by
  rw [updStep_eq]
  split
  · rfl
  · exact getD_set_ne C j i _ [] hij

/-- A fold of `updStep` over indices not containing `i` leaves row `i`
untouched. -/
theorem foldl_updStep_not_mem (P : NMat) (labels : List Nat) :
    ∀ (L : List Nat) (C : NMat) (i : Nat), i ∉ L →
      (L.foldl (updStep P labels) C).getD i [] = C.getD i [] := by
  intro L
  induction L with
  | nil => intro C i _; rfl
  | cons j L' ih =>
    intro C i hi
    have hij : j ≠ i := fun h => hi (h ▸ List.mem_cons_self j L')
    have hi' : i ∉ L' := fun h => hi (List.mem_cons_of_mem j h)
    rw [List.foldl_cons, ih _ i hi', updStep_getD_ne P labels C j i hij]

/-- Row `i` after a fold of `updStep` over duplicate-free indices containing
`i`: retained when cluster `i` is empty, otherwise overwritten with the mean
of its points. -/
theorem foldl_updStep_mem (P : NMat) (labels : List Nat) :
    ∀ (L : List Nat) (C : NMat) (i : Nat), i ∈ L → L.Nodup → i < C.length →
      (L.foldl (updStep P labels) C).getD i [] =
        (if (ptsOf P labels i).isEmpty then C.getD i []
         else meanRow (ptsOf P labels i) (width (ptsOf P labels i))) := by
  intro L
  induction L with
  | nil => intro C i hi; cases hi
  | cons j L' ih =>
    intro C i hi hnd hlen
    rcases List.mem_cons.mp hi with rfl | hi'
    · have hnotin : i ∉ L' := (List.nodup_cons.mp hnd).1
      rw [List.foldl_cons, foldl_updStep_not_mem P labels L' _ i hnotin, updStep_eq]
      by_cases hpts : (ptsOf P labels i).isEmpty
      · simp [hpts]
      · simp only [hpts, Bool.false_eq_true, if_false]
        exact getD_set_self C i _ [] hlen
    · have hnd' : L'.Nodup := (List.nodup_cons.mp hnd).2
      have hji : j ≠ i := by
        intro h
        subst h
        exact (List.nodup_cons.mp hnd).1 hi'
      have hlen' : i < (updStep P labels C j).length := by
        rw [updStep_length]; exact hlen
      rw [List.foldl_cons, ih _ i hi' hnd' hlen',
        updStep_getD_ne P labels C j i hji]

/-! ### Characterisation of the embedded `np.argmin` -/

/-- No value replaces itself in the argmin scan. -/
theorem npLtKeep_irrefl (v : NpF) : npLtKeep v v = false := by
  cases v <;> simp [npLtKeep]

/-- If `v` replaces the current minimum `c` and `w` did not, then `w` would
not replace `v` either. -/
theorem npLtKeep_trans_not {v c w : NpF} (h1 : npLtKeep v c = true)
    (h2 : npLtKeep w c = false) : npLtKeep w v = false := by
  cases v <;> cases c <;> cases w <;>
    (simp_all [npLtKeep]; try linarith)

/-- If `v` replaces the current minimum `c` and `w` did not, then `v` would
replace `w`. -/
theorem npLtKeep_keep {v c w : NpF} (h1 : npLtKeep v c = true)
    (h2 : npLtKeep w c = false) : npLtKeep v w = true := by
  cases v <;> cases c <;> cases w <;>
    (simp_all [npLtKeep]; try linarith)

/-- Invariant-carrying specification of the argmin scan: given that `best`
points into the already scanned prefix `pre` at the current minimum `cur`,
that no scanned value replaces `cur`, and that `cur` replaces every value
before `best`, the completed scan returns an in-range index whose value no
element replaces and which replaces every element before it. -/
theorem npArgminAux_spec :
    ∀ (vs pre : List NpF) (cur : NpF) (best : Nat),
      best < pre.length →
      pre.getD best NpF.nan = cur →
      (∀ j, j < pre.length → npLtKeep (pre.getD j NpF.nan) cur = false) →
      (∀ j, j < best → npLtKeep cur (pre.getD j NpF.nan) = true) →
      npArgminAux vs cur pre.length best < (pre ++ vs).length ∧
      (∀ j, j < (pre ++ vs).length →
        npLtKeep ((pre ++ vs).getD j NpF.nan)
          ((pre ++ vs).getD (npArgminAux vs cur pre.length best) NpF.nan) = false) ∧
      (∀ j, j < npArgminAux vs cur pre.length best →
        npLtKeep ((pre ++ vs).getD (npArgminAux vs cur pre.length best) NpF.nan)
          ((pre ++ vs).getD j NpF.nan) = true) := by
  intro vs
  induction vs with
  | nil =>
    intro pre cur best hb hcur h2 h3
    simp only [npArgminAux, List.append_nil]
    refine ⟨hb, ?_, ?_⟩
    · intro j hj
      rw [hcur]
      exact h2 j hj
    · intro j hj
      rw [hcur]
      exact h3 j hj
  | cons v vs' ih =>
    intro pre cur best hb hcur h2 h3
    have hassoc : pre ++ v :: vs' = (pre ++ [v]) ++ vs' := by simp
    have hlen1 : (pre ++ [v]).length = pre.length + 1 := by simp
    by_cases hkeep : npLtKeep v cur = true
    · have h := ih (pre ++ [v]) v pre.length
        (by simp)
        (getD_append_len pre v NpF.nan)
        (by
          intro j hj
          rw [hlen1] at hj
          rcases Nat.lt_succ_iff_lt_or_eq.mp hj with hj | rfl
          · rw [getD_append_lt pre [v] j NpF.nan hj]
            exact npLtKeep_trans_not hkeep (h2 j hj)
          · rw [getD_append_len pre v NpF.nan]
            exact npLtKeep_irrefl v)
        (by
          intro j hj
          rw [getD_append_lt pre [v] j NpF.nan hj]
          exact npLtKeep_keep hkeep (h2 j hj))
      rw [hlen1] at h
      simp only [npArgminAux, hkeep, if_true, hassoc]
      exact h
    · have hkeep' : npLtKeep v cur = false := by
        cases h : npLtKeep v cur
        · rfl
        · exact absurd h hkeep
      have h := ih (pre ++ [v]) cur best
        (by rw [hlen1]; omega)
        (by rw [getD_append_lt pre [v] best NpF.nan hb]; exact hcur)
        (by
          intro j hj
          rw [hlen1] at hj
          rcases Nat.lt_succ_iff_lt_or_eq.mp hj with hj | rfl
          · rw [getD_append_lt pre [v] j NpF.nan hj]
            exact h2 j hj
          · rw [getD_append_len pre v NpF.nan]
            exact hkeep')
        (by
          intro j hj
          rw [getD_append_lt pre [v] j NpF.nan (lt_trans hj hb)]
          exact h3 j hj)
      rw [hlen1] at h
      simp only [npArgminAux, hkeep', Bool.false_eq_true, if_false, hassoc]
      exact h

/-- Specification of the embedded `np.argmin` on a nonempty array: it
returns an in-range index whose value no element of the array replaces in
the scan order, and which replaces the value at every smaller index — i.e.
the lowest index of a minimal element (the first NaN counting as minimal). -/
theorem npArgmin_spec (l : List NpF) (hne : l ≠ []) :
    npArgmin l < l.length ∧
    (∀ j, j < l.length →
      npLtKeep (l.getD j NpF.nan) (l.getD (npArgmin l) NpF.nan) = false) ∧
    (∀ j, j < npArgmin l →
      npLtKeep (l.getD (npArgmin l) NpF.nan) (l.getD j NpF.nan) = true) := by
  cases l with
  | nil => exact absurd rfl hne
  | cons v vs =>
    have h := npArgminAux_spec vs [v] v 0
      (by simp)
      (by simp)
      (by
        intro j hj
        simp only [List.length_singleton] at hj
        obtain rfl : j = 0 := Nat.lt_one_iff.mp hj
        simpa using npLtKeep_irrefl v)
      (by intro j hj; omega)
    simpa [npArgmin] using h

/-- `npArgmin_spec` transported through a `map`: the argmin of the distances
to the rows of `C` is an in-range index, no row is nearer than the chosen
one, and the chosen row is strictly nearer than every earlier row (all in
the scan order `npLtKeep`). -/
theorem argmin_map_spec {γ : Type _} (f : γ → NpF) (C : List γ) (dC : γ)
    (hC : C ≠ []) :
    npArgmin (C.map f) < C.length ∧
    (∀ j, j < C.length →
      npLtKeep (f (C.getD j dC)) (f (C.getD (npArgmin (C.map f)) dC)) = false) ∧
    (∀ j, j < npArgmin (C.map f) →
      npLtKeep (f (C.getD (npArgmin (C.map f)) dC)) (f (C.getD j dC)) = true) := by
  have hne : C.map f ≠ [] := by
    intro h
    exact hC (List.map_eq_nil_iff.mp h)
  have h := npArgmin_spec (C.map f) hne
  rw [List.length_map] at h
  obtain ⟨h1, h2, h3⟩ := h
  refine ⟨h1, ?_, ?_⟩
  · intro j hj
    have := h2 j hj
    rwa [getD_map_lt f C j NpF.nan dC hj, getD_map_lt f C _ NpF.nan dC h1] at this
  · intro j hj
    have := h3 j hj
    rwa [getD_map_lt f C j NpF.nan dC (lt_trans hj h1),
      getD_map_lt f C _ NpF.nan dC h1] at this

/-! ### The claims -/

/-- C1: for every one of the four clustering variants, calling `predict`,
accessing the `labels` property, or calling `score` on an instance on which
`fit` has not yet completed successfully (fitted flag false) raises a
not-fitted error carrying the offending estimator instance, and never
returns a value. -/
theorem claim_C1 :
    (∀ (s : KMeansClustering) (X : NMat) (metric : NMat → List Nat → ℚ),
      s._fitted = false →
        s.predict X = Except.error (NotFittedError.notFitted s) ∧
        s.labels = Except.error (NotFittedError.notFitted s) ∧
        s.score X metric = Except.error (NotFittedError.notFitted s)) ∧
    (∀ (s : KMeansClusteringPlus) (X : NMat) (metric : NMat → List Nat → ℚ),
      s._fitted = false →
        s.predict X = Except.error (NotFittedError.notFitted s) ∧
        s.labels = Except.error (NotFittedError.notFitted s) ∧
        s.score X metric = Except.error (NotFittedError.notFitted s)) ∧
    (∀ (s : KMediansClustering) (X : NMat) (metric : NMat → List Nat → ℚ),
      s._fitted = false →
        s.predict X = Except.error (NotFittedError.notFitted s) ∧
        s.labels = Except.error (NotFittedError.notFitted s) ∧
        s.score X metric = Except.error (NotFittedError.notFitted s)) ∧
    (∀ (s : MiniBatchKMeansClustering) (X : NMat) (metric : NMat → List Nat → ℚ),
      s._fitted = false →
        s.predict X = Except.error (NotFittedError.notFitted s) ∧
        s.labels = Except.error (NotFittedError.notFitted s) ∧
        s.score X metric = Except.error (NotFittedError.notFitted s)) := by
  refine ⟨?_, ?_, ?_, ?_⟩ <;>
    · intro s X metric h
      refine ⟨?_, ?_, ?_⟩ <;>
        simp [KMeansClustering.predict, KMeansClustering.labels,
          KMeansClustering.score, KMeansClusteringPlus.predict,
          KMeansClusteringPlus.labels, KMeansClusteringPlus.score,
          KMediansClustering.predict, KMediansClustering.labels,
          KMediansClustering.score, MiniBatchKMeansClustering.predict,
          MiniBatchKMeansClustering.labels, MiniBatchKMeansClustering.score,
          Except.map, h]

/-- Witness for C1: all four freshly constructed instances reject `predict`,
`labels` and `score` with the not-fitted error carrying the instance. -/
theorem claim_C1_witness :
    km0.predict [[1]] = Except.error (NotFittedError.notFitted km0) ∧
    km0.labels = Except.error (NotFittedError.notFitted km0) ∧
    km0.score [[1]] (fun _ _ => 0) = Except.error (NotFittedError.notFitted km0) ∧
    plus0.predict [[1]] = Except.error (NotFittedError.notFitted plus0) ∧
    plus0.labels = Except.error (NotFittedError.notFitted plus0) ∧
    plus0.score [[1]] (fun _ _ => 0) = Except.error (NotFittedError.notFitted plus0) ∧
    kmed0.predict [[1]] = Except.error (NotFittedError.notFitted kmed0) ∧
    kmed0.labels = Except.error (NotFittedError.notFitted kmed0) ∧
    kmed0.score [[1]] (fun _ _ => 0) = Except.error (NotFittedError.notFitted kmed0) ∧
    mb0.predict [[1]] = Except.error (NotFittedError.notFitted mb0) ∧
    mb0.labels = Except.error (NotFittedError.notFitted mb0) ∧
    mb0.score [[1]] (fun _ _ => 0) = Except.error (NotFittedError.notFitted mb0) := by
  obtain ⟨h1, h2, h3, h4⟩ := claim_C1
  obtain ⟨a1, a2, a3⟩ := h1 km0 [[1]] (fun _ _ => 0) rfl
  obtain ⟨b1, b2, b3⟩ := h2 plus0 [[1]] (fun _ _ => 0) rfl
  obtain ⟨c1, c2, c3⟩ := h3 kmed0 [[1]] (fun _ _ => 0) rfl
  obtain ⟨d1, d2, d3⟩ := h4 mb0 [[1]] (fun _ _ => 0) rfl
  exact ⟨a1, a2, a3, b1, b2, b3, c1, c2, c3, d1, d2, d3⟩

/-- C8: for every one of the four variants, if `fit` fails, the exception
propagates to the caller (the model returns it, mirroring the absence of any
`try`/`except` in the code) and the fitted flag is left unchanged — false,
respectively unchanged, after the failed call. -/
theorem claim_C8 :
    (∀ (s : KMeansClustering) (X : NMat) (idx : List Nat),
      ((s.fit X idx).err).isSome = true →
      (s.fit X idx).state._fitted = s._fitted) ∧
    (∀ (s : KMeansClusteringPlus) (X : NMat) (orc : Nat → Nat),
      ((s.fit X orc).err).isSome = true →
      (s.fit X orc).state._fitted = s._fitted) ∧
    (∀ (s : KMediansClustering) (X : NMat) (idx : List Nat),
      ((s.fit X idx).err).isSome = true →
      (s.fit X idx).state._fitted = s._fitted) ∧
    (∀ (s : MiniBatchKMeansClustering) (X : NMat) (idx : List Nat)
        (orc : Nat → List Nat),
      ((s.fit X idx orc).err).isSome = true →
      (s.fit X idx orc).state._fitted = s._fitted) := by
  refine ⟨?_, ?_, ?_, ?_⟩
  · intro s X idx h
    unfold KMeansClustering.fit at h ⊢
    by_cases hc : X.length < s.n_clusters
    · simp only [if_pos hc] at h ⊢
    · simp only [if_neg hc] at h ⊢
      simp at h
  · intro s X orc h
    unfold KMeansClusteringPlus.fit at h ⊢
    by_cases hc : X.length = 0
    · simp only [if_pos hc] at h ⊢
    · simp only [if_neg hc] at h ⊢
      revert h
      split
      · intro _; rfl
      · intro h; simp at h
  · intro s X idx h
    unfold KMediansClustering.fit at h ⊢
    by_cases hc : X.length < s.n_clusters
    · simp only [if_pos hc] at h ⊢
    · simp only [if_neg hc] at h ⊢
      simp at h
  · intro s X idx orc h
    unfold MiniBatchKMeansClustering.fit at h ⊢
    by_cases hc : X.length < s.n_clusters
    · simp only [if_pos hc] at h ⊢
    · simp only [if_neg hc] at h ⊢
      revert h
      split
      · intro _; rfl
      · intro h; simp at h

/-- Witness for C8: four concrete failing `fit` calls (one row, two
clusters requested) leave the fitted flag where it was. -/
theorem claim_C8_witness :
    (km0.fit [[1]] []).state._fitted = km0._fitted ∧
    (plus0.fit [] (fun _ => 0)).state._fitted = plus0._fitted ∧
    (kmed0.fit [[1]] []).state._fitted = kmed0._fitted ∧
    (mb0.fit [[1]] [] (fun _ => [])).state._fitted = mb0._fitted := by
  refine ⟨?_, ?_, ?_, ?_⟩
  · exact claim_C8.1 km0 [[1]] [] (by decide)
  · exact claim_C8.2.1 plus0 [] (fun _ => 0) (by decide)
  · exact claim_C8.2.2.1 kmed0 [[1]] [] (by decide)
  · exact claim_C8.2.2.2 mb0 [[1]] [] (fun _ => []) (by decide)

/-- C9: in `KMeansClusteringPlus.fit`, `KMediansClustering.fit` and
`MiniBatchKMeansClustering.fit` the stored training-set reference is
overwritten with the new input before the initial random sampling, so a
`fit` call that fails leaves the new `_X` installed while the fitted flag
is not set by the call. -/
theorem claim_C9 :
    (∀ (s : KMeansClusteringPlus) (X : NMat) (orc : Nat → Nat),
      ((s.fit X orc).err).isSome = true →
      (s.fit X orc).state._X = some X ∧
      (s.fit X orc).state._fitted = s._fitted) ∧
    (∀ (s : KMediansClustering) (X : NMat) (idx : List Nat),
      ((s.fit X idx).err).isSome = true →
      (s.fit X idx).state._X = some X ∧
      (s.fit X idx).state._fitted = s._fitted) ∧
    (∀ (s : MiniBatchKMeansClustering) (X : NMat) (idx : List Nat)
        (orc : Nat → List Nat),
      ((s.fit X idx orc).err).isSome = true →
      (s.fit X idx orc).state._X = some X ∧
      (s.fit X idx orc).state._fitted = s._fitted) := by
  refine ⟨?_, ?_, ?_⟩
  · intro s X orc h
    unfold KMeansClusteringPlus.fit at h ⊢
    by_cases hc : X.length = 0
    · simp only [if_pos hc] at h ⊢
      refine ⟨?_, ?_⟩ <;> trivial
    · simp only [if_neg hc] at h ⊢
      revert h
      split
      · intro _; refine ⟨?_, ?_⟩ <;> trivial
      · intro h; simp at h
  · intro s X idx h
    unfold KMediansClustering.fit at h ⊢
    by_cases hc : X.length < s.n_clusters
    · simp only [if_pos hc] at h ⊢
      refine ⟨?_, ?_⟩ <;> trivial
    · simp only [if_neg hc] at h ⊢
      simp at h
  · intro s X idx orc h
    unfold MiniBatchKMeansClustering.fit at h ⊢
    by_cases hc : X.length < s.n_clusters
    · simp only [if_pos hc] at h ⊢
      refine ⟨?_, ?_⟩ <;> trivial
    · simp only [if_neg hc] at h ⊢
      revert h
      split
      · intro _; refine ⟨?_, ?_⟩ <;> trivial
      · intro h; simp at h

/-- Witness for C9: concrete over-clustered failing `fit` calls leave the
new training-set reference installed with the fitted flag still false. -/
theorem claim_C9_witness :
    (plus0.fit [] (fun _ => 0)).state._X = some [] ∧
    (plus0.fit [] (fun _ => 0)).state._fitted = plus0._fitted ∧
    (kmed0.fit [[1]] []).state._X = some [[1]] ∧
    (kmed0.fit [[1]] []).state._fitted = kmed0._fitted ∧
    (mb0.fit [[1]] [] (fun _ => [])).state._X = some [[1]] ∧
    (mb0.fit [[1]] [] (fun _ => [])).state._fitted = mb0._fitted := by
  obtain ⟨a1, a2⟩ := claim_C9.1 plus0 [] (fun _ => 0) (by decide)
  obtain ⟨b1, b2⟩ := claim_C9.2.1 kmed0 [[1]] [] (by decide)
  obtain ⟨c1, c2⟩ := claim_C9.2.2 mb0 [[1]] [] (fun _ => []) (by decide)
  exact ⟨a1, a2, b1, b2, c1, c2⟩

/-- C10: with at least `n_clusters` rows and a non-positive `max_iter`,
`fit` on `KMeansClustering`, `KMediansClustering` and
`MiniBatchKMeansClustering` completes successfully with zero assign/update
iterations, sets the fitted flag, and keeps as reference set exactly the
initially sampled rows of the input. -/
theorem claim_C10 :
    (∀ (s : KMeansClustering) (X : NMat) (idx : List Nat),
      s.n_clusters ≤ X.length → s.max_iter ≤ 0 →
      (s.fit X idx).err = none ∧ (s.fit X idx).iters = 0 ∧
      (s.fit X idx).state._fitted = true ∧
      (s.fit X idx).state.centroids =
        some (idx.map fun i => some (X.getD i []))) ∧
    (∀ (s : KMediansClustering) (X : NMat) (idx : List Nat),
      s.n_clusters ≤ X.length → s.max_iter ≤ 0 →
      (s.fit X idx).err = none ∧ (s.fit X idx).iters = 0 ∧
      (s.fit X idx).state._fitted = true ∧
      (s.fit X idx).state.medians =
        some (idx.map fun i => some (X.getD i []))) ∧
    (∀ (s : MiniBatchKMeansClustering) (X : NMat) (idx : List Nat)
        (orc : Nat → List Nat),
      s.n_clusters ≤ X.length → s.max_iter ≤ 0 →
      (s.fit X idx orc).err = none ∧ (s.fit X idx orc).iters = 0 ∧
      (s.fit X idx orc).state._fitted = true ∧
      (s.fit X idx orc).state.centroids =
        some (idx.map fun i => X.getD i [])) := by
  refine ⟨?_, ?_, ?_⟩
  · intro s X idx hK hmi
    have hnot : ¬ X.length < s.n_clusters := by omega
    have hz : s.max_iter.toNat = 0 := Int.toNat_of_nonpos hmi
    unfold KMeansClustering.fit
    simp [hnot, hz, convLoop]
  · intro s X idx hK hmi
    have hnot : ¬ X.length < s.n_clusters := by omega
    have hz : s.max_iter.toNat = 0 := Int.toNat_of_nonpos hmi
    unfold KMediansClustering.fit
    simp [hnot, hz, convLoop]
  · intro s X idx orc hK hmi
    have hnot : ¬ X.length < s.n_clusters := by omega
    have hz : s.max_iter.toNat = 0 := Int.toNat_of_nonpos hmi
    unfold MiniBatchKMeansClustering.fit
    simp [hnot, hz, mbLoop]

/-- Witness for C10: `max_iter = -1` (and `0`) on two-row data with two
clusters: `fit` succeeds at once and keeps the initially sampled rows. -/
theorem claim_C10_witness :
    ((KMeansClustering.make 2 (-1) false).fit [[1], [2]] [1, 0]).err = none ∧
    ((KMeansClustering.make 2 (-1) false).fit [[1], [2]] [1, 0]).iters = 0 ∧
    ((KMeansClustering.make 2 (-1) false).fit [[1], [2]] [1, 0]).state._fitted = true ∧
    ((KMeansClustering.make 2 (-1) false).fit [[1], [2]] [1, 0]).state.centroids =
      some [some [2], some [1]] ∧
    ((KMediansClustering.make 2 0 false).fit [[1], [2]] [0, 1]).err = none ∧
    ((KMediansClustering.make 2 0 false).fit [[1], [2]] [0, 1]).state.medians =
      some [some [1], some [2]] ∧
    ((MiniBatchKMeansClustering.make 2 5 (-3)).fit [[1], [2]] [0, 1]
        (fun _ => [])).err = none ∧
    ((MiniBatchKMeansClustering.make 2 5 (-3)).fit [[1], [2]] [0, 1]
        (fun _ => [])).state.centroids = some [[1], [2]] := by
  obtain ⟨a1, a2, a3, a4⟩ := claim_C10.1 (KMeansClustering.make 2 (-1) false)
    [[1], [2]] [1, 0] (by decide) (by decide)
  obtain ⟨b1, _, _, b4⟩ := claim_C10.2.1 (KMediansClustering.make 2 0 false)
    [[1], [2]] [0, 1] (by decide) (by decide)
  obtain ⟨c1, _, _, c4⟩ := claim_C10.2.2 (MiniBatchKMeansClustering.make 2 5 (-3))
    [[1], [2]] [0, 1] (fun _ => []) (by decide) (by decide)
  refine ⟨a1, a2, a3, ?_, b1, b4, c1, c4⟩
  rw [a4]; rfl

/-- C3: in the fit loops of `KMeansClustering` and `KMediansClustering`, if
an iteration's update step produces a reference set elementwise identical to
the previous one, the loop executes only that iteration and stops — however
much budget is left — and the resulting reference set is that fixed point. -/
theorem claim_C3 :
    (∀ (X : NMat) (K : Nat) (C : CMat) (fuel : Nat),
      1 ≤ K → 1 ≤ fuel → centroidsEq (kmStep X K C) C = true →
      convLoop (kmStep X K) fuel C = (C, 1)) ∧
    (∀ (X : NMat) (K : Nat) (C : CMat) (fuel : Nat),
      1 ≤ K → 1 ≤ fuel → centroidsEq (kmedStep X K C) C = true →
      convLoop (kmedStep X K) fuel C = (C, 1)) := by
  constructor
  · intro X K C fuel _ hfuel hconv
    obtain ⟨n, rfl⟩ : ∃ n, fuel = n + 1 :=
      ⟨fuel - 1, by omega⟩
    simp [convLoop, hconv]
  · intro X K C fuel _ hfuel hconv
    obtain ⟨n, rfl⟩ : ∃ n, fuel = n + 1 :=
      ⟨fuel - 1, by omega⟩
    simp [convLoop, hconv]

/-- Witness for C3: a single centroid at the mean (resp. median) of a
two-point dataset is a fixed point; with a budget of three iterations both
loops stop after the first. -/
theorem claim_C3_witness :
    convLoop (kmStep [[0], [2]] 1) 3 [some [1]] = ([some [1]], 1) ∧
    convLoop (kmedStep [[0], [2]] 1) 3 [some [1]] = ([some [1]], 1) :=
  ⟨claim_C3.1 [[0], [2]] 1 [some [1]] 3 (by decide) (by decide)
      (by with_unfolding_all decide),
   claim_C3.2 [[0], [2]] 1 [some [1]] 3 (by decide) (by decide)
      (by with_unfolding_all decide)⟩

/-- C4: `MiniBatchKMeansClustering.fit` has no convergence check: whenever
no iteration fails (the batch size fits in the population) and the initial
sampling succeeds, the loop executes exactly `max_iter` iterations. -/
theorem claim_C4 :
    ∀ (s : MiniBatchKMeansClustering) (X : NMat) (idx : List Nat)
      (orc : Nat → List Nat),
      s.n_clusters ≤ X.length → s.batch_size ≤ X.length → 0 ≤ s.max_iter →
      (s.fit X idx orc).err = none ∧
      ((s.fit X idx orc).iters : Int) = s.max_iter := by
  intro s X idx orc hK hbs hmi
  have hnot : ¬ X.length < s.n_clusters := by omega
  have hbs' : ¬ X.length < s.batch_size := by omega
  have hloop := mbLoop_ok X X.length s.n_clusters s.batch_size orc hbs'
    s.max_iter.toNat 0 (idx.map fun i => X.getD i [])
  unfold MiniBatchKMeansClustering.fit
  simp only [if_neg hnot]
  rw [hloop.1]
  exact ⟨rfl, by simp only; rw [hloop.2]; exact Int.toNat_of_nonneg hmi⟩

/-- Witness for C4: one cluster, batch of two, budget three on a two-row
dataset — the loop runs exactly three times and succeeds. -/
theorem claim_C4_witness :
    ((MiniBatchKMeansClustering.make 1 2 3).fit [[0], [4]] [0]
        (fun _ => [0, 1])).err = none ∧
    ((((MiniBatchKMeansClustering.make 1 2 3).fit [[0], [4]] [0]
        (fun _ => [0, 1])).iters : Int)) = (MiniBatchKMeansClustering.make 1 2 3).max_iter :=
  claim_C4 (MiniBatchKMeansClustering.make 1 2 3) [[0], [4]] [0]
    (fun _ => [0, 1]) (by decide) (by decide) (by decide)

/-- C2 counterexample: `KMeansClusteringPlus.fit` does not stop when the
update step reproduces the previous reference set.  On `[[0], [4]]` with one
cluster and `max_iter = 5`, the single centroid reaches its fixed point
`[2]` after the first iteration (`plusLoop` one step from the seed `[[0]]`
gives `[[2]]`, and the update at `[[2]]` returns `[[2]]` again), yet `fit`
executes all five iterations instead of stopping at the second. -/
theorem claim_C2_cex :
    plusLoop XC2 1 1 [[0]] = ([[2]], 1) ∧
    updSkipEmpty XC2 (assignQ XC2 [[2]]) 1 [[2]] = [[2]] ∧
    (plusC2.fit XC2 (fun _ => 0)).iters = 5 := by
  refine ⟨by with_unfolding_all decide, by with_unfolding_all decide,
    by with_unfolding_all decide⟩

/-- C2 (amended): `KMeansClusteringPlus.fit` follows the K-Means contract
apart from initialization and the convergence check: it performs no
convergence check, so whenever initialization succeeds the update loop runs
the full `max_iter` budget unconditionally. -/
theorem claim_C2 :
    ∀ (s : KMeansClusteringPlus) (X : NMat) (orc : Nat → Nat),
      (s.fit X orc).err = none →
      (s.fit X orc).iters = s.max_iter.toNat := by
  intro s X orc h
  unfold KMeansClusteringPlus.fit at h ⊢
  by_cases hc : X.length = 0
  · simp only [if_pos hc] at h
    simp at h
  · simp only [if_neg hc] at h ⊢
    revert h
    split
    · intro h; simp at h
    · intro _
      simp only
      exact plusLoop_iters X s.n_clusters s.max_iter.toNat _

/-- Witness for C2 (amended): the counterexample instance runs all five
iterations. -/
theorem claim_C2_witness :
    (plusC2.fit XC2 (fun _ => 0)).iters = plusC2.max_iter.toNat :=
  claim_C2 plusC2 XC2 (fun _ => 0) (by decide)

/-- C5: in the update step shared by `KMeansClusteringPlus.fit` (over the
full dataset) and `MiniBatchKMeansClustering.fit` (over the current batch),
every cluster index with zero assigned points keeps its previous reference
row unchanged for that iteration, while every other cluster's reference row
is set to the mean of its assigned points. -/
theorem claim_C5 :
    ∀ (P : NMat) (labels : List Nat) (K : Nat) (C : NMat) (i : Nat),
      i < K → C.length = K →
      ((ptsOf P labels i).isEmpty = true →
        (updSkipEmpty P labels K C).getD i [] = C.getD i []) ∧
      ((ptsOf P labels i).isEmpty = false →
        (updSkipEmpty P labels K C).getD i [] =
          meanRow (ptsOf P labels i) (width (ptsOf P labels i))) := by
  intro P labels K C i hiK hlen
  have hmem : i ∈ List.range K := List.mem_range.mpr hiK
  have h := foldl_updStep_mem P labels (List.range K) C i hmem
    (List.nodup_range K) (by omega)
  constructor
  · intro hempty
    rw [updSkipEmpty, h, if_pos hempty]
  · intro hempty
    rw [updSkipEmpty, h, if_neg (by rw [hempty]; exact Bool.false_ne_true)]

/-- Witness for C5: on a two-row dataset with two clusters where every
point lands in cluster 0, cluster 1 keeps its row and cluster 0 moves to
the mean of both points. -/
theorem claim_C5_witness :
    (updSkipEmpty [[0], [4]] [0, 0] 2 [[1], [9]]).getD 1 [] = [9] ∧
    (updSkipEmpty [[0], [4]] [0, 0] 2 [[1], [9]]).getD 0 [] =
      meanRow (ptsOf [[0], [4]] [0, 0] 0) (width (ptsOf [[0], [4]] [0, 0] 0)) := by
  constructor
  · exact (claim_C5 [[0], [4]] [0, 0] 2 [[1], [9]] 1 (by decide) (by decide)).1
      (by decide)
  · exact (claim_C5 [[0], [4]] [0, 0] 2 [[1], [9]] 0 (by decide) (by decide)).2
      (by decide)

/-- C6 counterexample: the claim asserts that all four variants fail with
the sampling-range error of drawing `n_clusters` distinct row indices when
`n_clusters` exceeds the row count.  `KMeansClusteringPlus` does not: on the
two-row dataset `[[0], [1]]` with three clusters (draw oracle: row `t` at
draw `t`, the only row with nonzero weight there) its seeding fails with the
NaN-probabilities error of the weighted single draw, which is a different
`np.random.choice` failure than the sampling-range error. -/
theorem claim_C6_cex :
    (plusC6.fit XC6 orcC6).err = some SamplingErr.probsErr ∧
    some SamplingErr.probsErr ≠ some SamplingErr.rangeErr := by
  refine ⟨by with_unfolding_all decide, by decide⟩

/-- C6 (amended): none of the four variants validates `n_clusters ≤ N`.
`KMeansClustering`, `KMediansClustering` and `MiniBatchKMeansClustering`
fail with the sampling-range error raised by the without-replacement draw of
`n_clusters` distinct row indices; `KMeansClusteringPlus` draws seeds one at
a time with distance-squared weights and, when `n_clusters` exceeds a
positive row count, fails with the NaN-probabilities error of that weighted
draw once every row coincides with a chosen seed (for any draw oracle the
primitive could produce). -/
theorem claim_C6 :
    (∀ (s : KMeansClustering) (X : NMat) (idx : List Nat),
      X.length < s.n_clusters →
      (s.fit X idx).err = some SamplingErr.rangeErr) ∧
    (∀ (s : KMediansClustering) (X : NMat) (idx : List Nat),
      X.length < s.n_clusters →
      (s.fit X idx).err = some SamplingErr.rangeErr) ∧
    (∀ (s : MiniBatchKMeansClustering) (X : NMat) (idx : List Nat)
        (orc : Nat → List Nat),
      X.length < s.n_clusters →
      (s.fit X idx orc).err = some SamplingErr.rangeErr) ∧
    (∀ (s : KMeansClusteringPlus) (X : NMat) (orc : Nat → Nat),
      1 ≤ X.length → X.length < s.n_clusters → orc 0 < X.length →
      validDraws X orc (s.n_clusters - 1) 1 [X.getD (orc 0) []] = true →
      (s.fit X orc).err = some SamplingErr.probsErr) := by
  refine ⟨?_, ?_, ?_, ?_⟩
  · intro s X idx h
    unfold KMeansClustering.fit
    simp [if_pos h]
  · intro s X idx h
    unfold KMediansClustering.fit
    simp [if_pos h]
  · intro s X idx orc h
    unfold MiniBatchKMeansClustering.fit
    simp [if_pos h]
  · intro s X orc hN hK horc hvalid
    have hne : ¬ X.length = 0 := by omega
    have hfail := plusDraws_fails X orc (s.n_clusters - 1) 1 [X.getD (orc 0) []]
      (List.nodup_singleton _)
      (by
        intro c hc
        rcases List.mem_singleton.mp hc with rfl
        exact getD_mem X (orc 0) [] horc)
      hvalid
      (by simp only [List.length_singleton]; omega)
    unfold KMeansClusteringPlus.fit
    simp only [if_neg hne]
    rw [hfail]

/-- Witness for C6 (amended): concrete over-clustered calls — empty data
with one cluster for the three range-error variants, and the two-row/three-
cluster seeding run for `KMeansClusteringPlus`. -/
theorem claim_C6_witness :
    ((KMeansClustering.make 1 100 false).fit [] []).err =
      some SamplingErr.rangeErr ∧
    ((KMediansClustering.make 1 100 false).fit [] []).err =
      some SamplingErr.rangeErr ∧
    ((MiniBatchKMeansClustering.make 1 100 100).fit [] [] (fun _ => [])).err =
      some SamplingErr.rangeErr ∧
    (plusC6.fit XC6 orcC6).err = some SamplingErr.probsErr := by
  refine ⟨?_, ?_, ?_, ?_⟩
  · exact claim_C6.1 (KMeansClustering.make 1 100 false) [] [] (by decide)
  · exact claim_C6.2.1 (KMediansClustering.make 1 100 false) [] [] (by decide)
  · exact claim_C6.2.2.1 (MiniBatchKMeansClustering.make 1 100 100) [] []
      (fun _ => []) (by decide)
  · exact claim_C6.2.2.2 plusC6 XC6 orcC6 (by decide) (by decide) (by decide)
      (by with_unfolding_all decide)

/-- C7: for every fitted instance of any of the four variants with
`K = n_clusters` reference rows and any input matrix, every label returned
by `predict` (hence by `labels` and by the labels handed to `score`) is an
integer in `[0, K)`, namely the lowest index of a nearest reference row: no
row beats the chosen one in the argmin scan order `npLtKeep` (which is the
strict distance order whenever the distances are real numbers), and the
chosen one beats every row of smaller index. -/
theorem claim_C7 :
    (∀ (s : KMeansClustering) (X : NMat) (C : CMat) (ls : List Nat),
      s._fitted = true → s.centroids = some C → C.length = s.n_clusters →
      1 ≤ s.n_clusters → s.predict X = Except.ok ls →
      ∀ p, p < X.length →
        ls.getD p 0 < s.n_clusters ∧
        (∀ j, j < s.n_clusters →
          npLtKeep (distE (X.getD p []) (C.getD j none))
            (distE (X.getD p []) (C.getD (ls.getD p 0) none)) = false) ∧
        (∀ j, j < ls.getD p 0 →
          npLtKeep (distE (X.getD p []) (C.getD (ls.getD p 0) none))
            (distE (X.getD p []) (C.getD j none)) = true)) ∧
    (∀ (s : KMeansClusteringPlus) (X : NMat) (C : NMat) (ls : List Nat),
      s._fitted = true → s.centroids = some C → C.length = s.n_clusters →
      1 ≤ s.n_clusters → s.predict X = Except.ok ls →
      ∀ p, p < X.length →
        ls.getD p 0 < s.n_clusters ∧
        (∀ j, j < s.n_clusters →
          npLtKeep (NpF.num (sqDist (X.getD p []) (C.getD j [])))
            (NpF.num (sqDist (X.getD p []) (C.getD (ls.getD p 0) []))) = false) ∧
        (∀ j, j < ls.getD p 0 →
          npLtKeep (NpF.num (sqDist (X.getD p []) (C.getD (ls.getD p 0) [])))
            (NpF.num (sqDist (X.getD p []) (C.getD j []))) = true)) ∧
    (∀ (s : KMediansClustering) (X : NMat) (C : CMat) (ls : List Nat),
      s._fitted = true → s.medians = some C → C.length = s.n_clusters →
      1 ≤ s.n_clusters → s.predict X = Except.ok ls →
      ∀ p, p < X.length →
        ls.getD p 0 < s.n_clusters ∧
        (∀ j, j < s.n_clusters →
          npLtKeep (distM (X.getD p []) (C.getD j none))
            (distM (X.getD p []) (C.getD (ls.getD p 0) none)) = false) ∧
        (∀ j, j < ls.getD p 0 →
          npLtKeep (distM (X.getD p []) (C.getD (ls.getD p 0) none))
            (distM (X.getD p []) (C.getD j none)) = true)) ∧
    (∀ (s : MiniBatchKMeansClustering) (X : NMat) (C : NMat) (ls : List Nat),
      s._fitted = true → s.centroids = some C → C.length = s.n_clusters →
      1 ≤ s.n_clusters → s.predict X = Except.ok ls →
      ∀ p, p < X.length →
        ls.getD p 0 < s.n_clusters ∧
        (∀ j, j < s.n_clusters →
          npLtKeep (NpF.num (sqDist (X.getD p []) (C.getD j [])))
            (NpF.num (sqDist (X.getD p []) (C.getD (ls.getD p 0) []))) = false) ∧
        (∀ j, j < ls.getD p 0 →
          npLtKeep (NpF.num (sqDist (X.getD p []) (C.getD (ls.getD p 0) [])))
            (NpF.num (sqDist (X.getD p []) (C.getD j []))) = true)) := by
  refine ⟨?_, ?_, ?_, ?_⟩
  · intro s X C ls hf hc hlen hK hpred p hp
    have hls : ls = assignE X C := by
      unfold KMeansClustering.predict at hpred
      rw [if_pos hf, hc] at hpred
      exact (Except.ok.inj hpred).symm
    have hCne : C ≠ [] := List.ne_nil_of_length_pos (by omega)
    have harg : ls.getD p 0 = npArgmin (C.map (distE (X.getD p []))) := by
      rw [hls]
      exact getD_map_lt _ X p 0 [] hp
    obtain ⟨h1, h2, h3⟩ := argmin_map_spec (distE (X.getD p [])) C none hCne
    refine ⟨?_, ?_, ?_⟩
    · rw [harg, ← hlen]; exact h1
    · intro j hj
      rw [harg]
      exact h2 j (by omega)
    · intro j hj
      rw [harg] at hj ⊢
      exact h3 j hj
  · intro s X C ls hf hc hlen hK hpred p hp
    have hls : ls = assignQ X C := by
      unfold KMeansClusteringPlus.predict at hpred
      rw [if_pos hf, hc] at hpred
      exact (Except.ok.inj hpred).symm
    have hCne : C ≠ [] := List.ne_nil_of_length_pos (by omega)
    have harg : ls.getD p 0 =
        npArgmin (C.map (fun c => NpF.num (sqDist (X.getD p []) c))) := by
      rw [hls]
      exact getD_map_lt _ X p 0 [] hp
    obtain ⟨h1, h2, h3⟩ :=
      argmin_map_spec (fun c => NpF.num (sqDist (X.getD p []) c)) C [] hCne
    refine ⟨?_, ?_, ?_⟩
    · rw [harg, ← hlen]; exact h1
    · intro j hj
      rw [harg]
      exact h2 j (by omega)
    · intro j hj
      rw [harg] at hj ⊢
      exact h3 j hj
  · intro s X C ls hf hc hlen hK hpred p hp
    have hls : ls = assignM X C := by
      unfold KMediansClustering.predict at hpred
      rw [if_pos hf, hc] at hpred
      exact (Except.ok.inj hpred).symm
    have hCne : C ≠ [] := List.ne_nil_of_length_pos (by omega)
    have harg : ls.getD p 0 = npArgmin (C.map (distM (X.getD p []))) := by
      rw [hls]
      exact getD_map_lt _ X p 0 [] hp
    obtain ⟨h1, h2, h3⟩ := argmin_map_spec (distM (X.getD p [])) C none hCne
    refine ⟨?_, ?_, ?_⟩
    · rw [harg, ← hlen]; exact h1
    · intro j hj
      rw [harg]
      exact h2 j (by omega)
    · intro j hj
      rw [harg] at hj ⊢
      exact h3 j hj
  · intro s X C ls hf hc hlen hK hpred p hp
    have hls : ls = assignQ X C := by
      unfold MiniBatchKMeansClustering.predict at hpred
      rw [if_pos hf, hc] at hpred
      exact (Except.ok.inj hpred).symm
    have hCne : C ≠ [] := List.ne_nil_of_length_pos (by omega)
    have harg : ls.getD p 0 =
        npArgmin (C.map (fun c => NpF.num (sqDist (X.getD p []) c))) := by
      rw [hls]
      exact getD_map_lt _ X p 0 [] hp
    obtain ⟨h1, h2, h3⟩ :=
      argmin_map_spec (fun c => NpF.num (sqDist (X.getD p []) c)) C [] hCne
    refine ⟨?_, ?_, ?_⟩
    · rw [harg, ← hlen]; exact h1
    · intro j hj
      rw [harg]
      exact h2 j (by omega)
    · intro j hj
      rw [harg] at hj ⊢
      exact h3 j hj

/-- Witness for C7: concrete fitted instances of all four variants; the
labels produced by `predict` on `[[0], [4]]` stay below `n_clusters`, and
for the K-Means instance no reference row beats the chosen one. -/
theorem claim_C7_witness :
    (assignE [[0], [4]] [some [2]]).getD 0 0 < kmF.n_clusters ∧
    (assignQ [[0], [4]] [[0], [4]]).getD 1 0 < plusF.n_clusters ∧
    (assignM [[0], [4]] [some [0], some [4]]).getD 0 0 < kmedF.n_clusters ∧
    (assignQ [[0], [4]] [[0], [4]]).getD 0 0 < mbF.n_clusters ∧
    npLtKeep (distE [0] (([some [2]] : CMat).getD 0 none))
      (distE [0]
        (([some [2]] : CMat).getD ((assignE [[0], [4]] [some [2]]).getD 0 0) none)) =
      false := by
  obtain ⟨hA1, hA2, _⟩ := claim_C7.1 kmF [[0], [4]] [some [2]]
    (assignE [[0], [4]] [some [2]]) rfl rfl rfl (by decide) rfl 0 (by decide)
  obtain ⟨hB1, _, _⟩ := claim_C7.2.1 plusF [[0], [4]] [[0], [4]]
    (assignQ [[0], [4]] [[0], [4]]) rfl rfl rfl (by decide) rfl 1 (by decide)
  obtain ⟨hC1, _, _⟩ := claim_C7.2.2.1 kmedF [[0], [4]] [some [0], some [4]]
    (assignM [[0], [4]] [some [0], some [4]]) rfl rfl rfl (by decide) rfl 0 (by decide)
  obtain ⟨hD1, _, _⟩ := claim_C7.2.2.2 mbF [[0], [4]] [[0], [4]]
    (assignQ [[0], [4]] [[0], [4]]) rfl rfl rfl (by decide) rfl 0 (by decide)
  exact ⟨hA1, hB1, hC1, hD1, hA2 0 (by decide)⟩
